import Mathlib

/-!
Verification of the response-normalization and request-building logic of
`nano-banana-mcp-rs` (`src/tools.rs`).

Modelling choices:
* JSON values (`serde_json::Value`) are embedded as the inductive `Json`;
  numbers are `Int` (no claim here depends on float semantics).
* Rust strings are modelled at the character level (`String` / `List Char`);
  `str::find` returns byte indices in Rust, but all patterns involved are
  ASCII and every index produced is only ever used to split the same string,
  so a character-level model is faithful.
* The external helpers from the `image_utils` module (not part of the
  verified sources) are passed in as function parameters: a classifier
  `String → Except Unit ImageContent` and a save-directory fallback
  `String → String → Except Unit ImageContent`.  All theorems about
  `tools.rs` hold for every instantiation of these parameters.
* The shared save-directory state (`self.save_directory.read().await`) is
  modelled by an oracle `Nat → String` giving the value returned by the
  n-th read performed by the invocation, together with an explicit count of
  the reads performed.
-/

/-- Embedding of `serde_json::Value`. -/
inductive Json where
  | null : Json
  | bool : Bool → Json
  | num : Int → Json
  | str : String → Json
  | arr : List Json → Json
  | obj : List (String × Json) → Json

/-- First-match lookup in a JSON object's field list (serde maps have unique
keys, so first-match agrees with map lookup). -/
def lookupField : List (String × Json) → String → Option Json
  | [], _ => none
  | (k, v) :: rest, key => if k = key then some v else lookupField rest key

/-- `Value::get(key)`: field lookup, `none` on non-objects. -/
def Json.get : Json → String → Option Json
  | .obj fields, key => lookupField fields key
  | _, _ => none

/-- `Value::as_str`. -/
def Json.asStr : Json → Option String
  | .str s => some s
  | _ => none

/-- `Value::as_array`. -/
def Json.asArr : Json → Option (List Json)
  | .arr xs => some xs
  | _ => none

/-- `str::find(pattern)`: index of the first occurrence of `pat` in `text`
(character-level). -/
def findSub (pat : List Char) : List Char → Option Nat
  | [] => if pat.isPrefixOf ([] : List Char) then some 0 else none
  | c :: rest =>
    if pat.isPrefixOf (c :: rest) then some 0
    else (findSub pat rest).map (· + 1)

/-- `str::contains(needle)` on character lists. -/
def containsSub (needle hay : List Char) : Bool :=
  (findSub needle hay).isSome

/-- `str::contains(needle)` on strings. -/
def containsSubStr (needle hay : String) : Bool :=
  containsSub needle.toList hay.toList

/-- `str::trim`: drop whitespace from both ends. -/
def trimList (cs : List Char) : List Char :=
  ((cs.dropWhile Char.isWhitespace).reverse.dropWhile Char.isWhitespace).reverse

/-- The pattern `"!["` searched for in `extract_images_from_markdown`. -/
def bangBracket : List Char := ['!', '[']

/-- The pattern `"]("` searched for in `extract_images_from_markdown`. -/
def bracketParen : List Char := [']', '(']

/-- The pattern `"data:image/"` tested in `extract_images_from_markdown`. -/
def dataImagePat : List Char := "data:image/".toList

/-- The inner match attempt of one `extract_images_from_markdown` iteration:
given the text from the found `"!["` onwards, look for `"]("`, require the
tail to start with `"data:image/"`, and look for the closing `')'`.  On
success returns the length of the full matched span (from the `"!["`) and
the captured data URL. -/
def mdTryMatch (remaining : List Char) : Option (Nat × List Char) :=
  match findSub bracketParen remaining with
  | none => none
  | some paren_idx =>
    let after_paren := remaining.drop (paren_idx + 2)
    if dataImagePat.isPrefixOf after_paren then
      match findSub [')'] after_paren with
      | none => none
      | some end_idx => some (paren_idx + 2 + end_idx + 1, after_paren.take end_idx)
    else none

/-- The `loop` of `extract_images_from_markdown` (tools.rs:323-348), with
explicit fuel.  Each iteration finds the first `"!["`; on a complete
markdown-image match it removes the whole span and records the data URL, and
otherwise it removes just the two `"!["` characters (tools.rs:344) and
continues.  Returns `none` only on fuel exhaustion. -/
def mdLoopF : Nat → List Char → List (List Char) → Option (List Char × List (List Char))
  | 0, _, _ => none
  | fuel + 1, text, images =>
    match findSub bangBracket text with
    | none => some (text, images)
    | some start_idx =>
      match mdTryMatch (text.drop start_idx) with
      | some (mlen, data_url) =>
          mdLoopF fuel (text.take start_idx ++ text.drop (start_idx + mlen))
            (images ++ [data_url])
      | none =>
          mdLoopF fuel (text.take start_idx ++ text.drop (start_idx + 2)) images

/-- `extract_images_from_markdown` (tools.rs:318-351), character-level.
Fuel `length + 1` suffices (proved below), so the `none` branch is dead. -/
def extract_images_from_markdown (cs : List Char) : List Char × List (List Char) :=
  match mdLoopF (cs.length + 1) cs [] with
  | some (t, imgs) => (trimList t, imgs)
  | none => (cs, [])

/-- `json!({ "image_url": { "url": <string> } })` as built for embedded
markdown images and for `b64_json` data entries. -/
def mkImgUrlStr (u : String) : Json :=
  .obj [("image_url", .obj [("url", .str u)])]

/-- `json!({ "image_url": { "url": <value> } })` as built for `url` data
entries (the value is forwarded unchanged, whatever its JSON type). -/
def mkImgUrlVal (u : Json) : Json :=
  .obj [("image_url", .obj [("url", u)])]

/-- `response.get("choices").and_then(|c| c.as_array())` (tools.rs:368). -/
def choicesArr (response : Json) : Option (List Json) :=
  (response.get "choices").bind Json.asArr

/-- `response.get("candidates").and_then(|c| c.as_array())` (tools.rs:378). -/
def candidatesArr (response : Json) : Option (List Json) :=
  (response.get "candidates").bind Json.asArr

/-- Step 2 of `extract_text_and_images` (tools.rs:368-394): locate the first
message, compatible with both `choices` and `candidates` envelopes. -/
def selectMessage (response : Json) : Except String Json :=
  match choicesArr response with
  | some choices =>
    match choices with
    | [] => .error "API 响应中 'choices' 数组为空"
    | c0 :: _ =>
      match c0.get "message" with
      | some m => .ok m
      | none => .error "响应格式无效: choices[0].message 缺失"
  | none =>
    match candidatesArr response with
    | some candidates =>
      match candidates with
      | [] => .error "API 响应中 'candidates' 数组为空"
      | c0 :: _ =>
        match c0.get "content" with
        | some m => .ok m
        | none => .error "响应格式无效: candidates[0].content 缺失"
    | none => .error "响应格式无效: 未找到 choices 或 candidates"

/-- Step 3 of `extract_text_and_images` (tools.rs:396-444): scan the selected
content field, collecting text fragments (markdown-cleaned) and image
descriptors, in encounter order. -/
def scanContent (content_field : Json) : List String × List Json :=
  match content_field with
  | .str s =>
    let p := extract_images_from_markdown s.toList
    let imgs := p.2.map (fun u => mkImgUrlStr (String.mk u))
    let texts := if p.1.isEmpty then [] else [String.mk p.1]
    (texts, imgs)
  | .arr parts =>
    parts.foldl
      (fun (acc : List String × List Json) part =>
        let part_type := ((part.get "type").bind Json.asStr).getD ""
        if part_type = "text" then
          match (part.get "text").bind Json.asStr with
          | some t =>
            let p := extract_images_from_markdown t.toList
            ((if p.1.isEmpty then acc.1 else acc.1 ++ [String.mk p.1]),
             acc.2 ++ p.2.map (fun u => mkImgUrlStr (String.mk u)))
          | none => acc
        else if part_type = "image_url" then
          match part.get "image_url" with
          | some v => (acc.1, acc.2 ++ [Json.obj [("image_url", v)]])
          | none => acc
        else acc)
      ([], [])
  | _ => ([], [])

/-- Step 4a of `extract_text_and_images` (tools.rs:447-453): the
`message.images` array. -/
def messageImages (message : Json) : List Json :=
  match (message.get "images").bind Json.asArr with
  | some imgs =>
    imgs.foldl
      (fun acc img =>
        match img.get "image_url" with
        | some url_obj => acc ++ [Json.obj [("image_url", url_obj)]]
        | none => acc)
      []
  | none => []

/-- Step 4b of `extract_text_and_images` (tools.rs:454-465): the top-level
`data` array, scanned only when no image was found earlier. -/
def dataImages (response : Json) : List Json :=
  match (response.get "data").bind Json.asArr with
  | some entries =>
    entries.foldl
      (fun acc img =>
        match (img.get "b64_json").bind Json.asStr with
        | some b64 => acc ++ [mkImgUrlStr ("data:image/png;base64," ++ b64)]
        | none =>
          match img.get "url" with
          | some url => acc ++ [mkImgUrlVal url]
          | none => acc)
      []
  | none => []

/-- The upstream error message extracted at tools.rs:357-360:
`error.get("message").and_then(as_str).unwrap_or("未知错误")`. -/
def upstreamErrMsg (error : Json) : String :=
  ((error.get "message").bind Json.asStr).getD "未知错误"

/-- The content field selected at tools.rs:400-403:
`message.get("content").or_else(get("parts")).unwrap_or(message)`. -/
def contentFieldOf (message : Json) : Json :=
  (((message.get "content").orElse (fun _ => message.get "parts")).getD message)

/-- `extract_text_and_images` (tools.rs:354-473): normalize an upstream
reply into `(text, image descriptors)` or fail. -/
def extract_text_and_images (response : Json) : Except String (String × List Json) :=
  match response.get "error" with
  | some error => .error ("API 返回错误: " ++ upstreamErrMsg error)
  | none =>
    match selectMessage response with
    | .error e => .error e
    | .ok message =>
      let p := scanContent (contentFieldOf message)
      let imgs1 := p.2 ++ messageImages message
      let images := if imgs1.isEmpty then imgs1 ++ dataImages response else imgs1
      let merged_text := if p.1.isEmpty then "无内容" else String.intercalate "\n" p.1
      .ok (merged_text, images)

/-- Result type of `image_utils::detect_and_process_image_input` and
`image_utils::find_image_in_save_directory`, as consumed by tools.rs
(fields `content_type` and `data`).  The helpers themselves live outside
the verified sources and are passed as parameters below. -/
structure ImageContent where
  content_type : String
  data : String

/-- Arguments of the `edit_image` tool (tools.rs:19-27). -/
structure EditImageArgs where
  instruction : String
  images : List String

/-- `Except.isOk` spelled out (avoid dependence on library naming). -/
def exceptIsOk : Except ε α → Bool
  | .ok _ => true
  | .error _ => false

/-- `json!({"type": "text", "text": t})` (tools.rs:152-155). -/
def textPart (t : String) : Json :=
  .obj [("type", .str "text"), ("text", .str t)]

/-- `json!({"type": "image_url", "image_url": {"url": u}})`
(tools.rs:161-196). -/
def imageUrlPart (u : String) : Json :=
  .obj [("type", .str "image_url"), ("image_url", .obj [("url", .str u)])]

/-- The usage-error text returned by `edit_image` for an empty image list
(tools.rs:143-148). -/
def usageErrorMsg : String :=
  "❌ 编辑图像时必须传入至少一张图片！\n\n请提供以下格式之一的图片：\n- URL链接 (http:// 或 https://)\n- base64编码数据 (data:image/...)\n- 本地文件路径\n\n示例：\n- URL: https://example.com/image.jpg\n- 本地文件: C:\\Images\\photo.png\n- base64: data:image/jpeg;base64,/9j/4AAQ..."

/-- The `Err(_)` branch of one loop iteration of `edit_image`
(tools.rs:179-199): with the save-directory value `d` just read, try
`find_image_in_save_directory`; if it also fails, forward the raw input
string verbatim as the URL. -/
def editFallbackPart (findDir : String → String → Except Unit ImageContent)
    (d : String) (image_input : String) : Json :=
  match findDir image_input d with
  | .ok image_content => imageUrlPart image_content.data
  | .error _ => imageUrlPart image_input

/-- One full iteration of the `edit_image` image loop (tools.rs:157-201)
given the save-directory value `d` that would be read on classification
failure.  The three `content_type` arms of the source are kept although
they build the same part. -/
def editProcessOne (classify : String → Except Unit ImageContent)
    (findDir : String → String → Except Unit ImageContent)
    (d : String) (image_input : String) : Json :=
  match classify image_input with
  | .ok image_content =>
    if image_content.content_type = "url" then imageUrlPart image_content.data
    else if image_content.content_type = "base64" then imageUrlPart image_content.data
    else imageUrlPart image_content.data
  | .error _ => editFallbackPart findDir d image_input

/-- The `for image_input in &args.images` loop of `edit_image`
(tools.rs:157-201).  `oracle n` is the value produced by the n-th read of
the shared save-directory state; `k` counts reads performed so far.  A read
happens exactly in the classification-failure branch (tools.rs:180-183).
Returns the image parts in order and the updated read count. -/
def editLoop (classify : String → Except Unit ImageContent)
    (findDir : String → String → Except Unit ImageContent)
    (oracle : Nat → String) : List String → Nat → List Json × Nat
  | [], k => ([], k)
  | image_input :: rest, k =>
    match classify image_input with
    | .ok image_content =>
      let part :=
        if image_content.content_type = "url" then imageUrlPart image_content.data
        else if image_content.content_type = "base64" then imageUrlPart image_content.data
        else imageUrlPart image_content.data
      let r := editLoop classify findDir oracle rest k
      (part :: r.1, r.2)
    | .error _ =>
      let part := editFallbackPart findDir (oracle k) image_input
      let r := editLoop classify findDir oracle rest (k + 1)
      (part :: r.1, r.2)

/-- The outbound request body built by `edit_image` (tools.rs:203-211);
`temperature: 0.7` is a floating-point constant not tracked here. -/
structure EditRequest where
  model : String
  content : List Json
  max_tokens : Nat

/-- The pre-network phase of `edit_image` (tools.rs:143-211): reject an
empty image list with the usage error, otherwise build the outbound
request content (one text part, then the image loop's parts).  Returning
`Except.error` models aborting before any request exists, hence before any
network call. -/
def edit_image_build (classify : String → Except Unit ImageContent)
    (findDir : String → String → Except Unit ImageContent)
    (oracle : Nat → String) (modelName : String) (args : EditImageArgs) :
    Except String EditRequest :=
  if args.images.isEmpty then .error usageErrorMsg
  else
    .ok { model := modelName
          content := textPart args.instruction ::
            (editLoop classify findDir oracle args.images 0).1
          max_tokens := 1000 }

/-- Number of reads of the shared save-directory state performed by one
`edit_image` invocation on the success path: one per image whose
classification fails (tools.rs:180-183) plus one before persistence
(tools.rs:231-234).  The empty-list usage-error path performs none. -/
def edit_invocation_read_count (classify : String → Except Unit ImageContent)
    (findDir : String → String → Except Unit ImageContent)
    (oracle : Nat → String) (args : EditImageArgs) : Nat :=
  if args.images.isEmpty then 0
  else (editLoop classify findDir oracle args.images 0).2 + 1

/-- Number of reads of the shared save-directory state performed by one
`generate_image` invocation on the success path (tools.rs:70-73). -/
def generate_invocation_read_count : Nat := 1

/-- The per-image outcome record produced by
`image_utils::save_response_images`, as consumed by the report formatting
in tools.rs (fields `url`, `saved_path`, `debug_info`). -/
structure SavedImageInfo where
  url : String
  saved_path : Option String
  debug_info : String

/-- UTF-8 byte length of a character-level string, i.e. Rust's
`str::len()`.  `Char.utf8Size` is 1 below U+0080, 2 below U+0800, 3 below
U+10000 and 4 above — exactly the UTF-8 encoding sizes Rust uses. -/
def utf8Len : List Char → Nat
  | [] => 0
  | c :: rest => c.utf8Size + utf8Len rest

/-- Rust byte-index slicing `&s[..n]` at the character level: keep whole
characters while their encoded bytes fit within `n`; `none` models the
panic Rust raises when `n` is not a character boundary (or exceeds the
byte length). -/
def sliceBytes : List Char → Nat → Option (List Char)
  | _, 0 => some []
  | [], _ + 1 => none
  | c :: rest, n + 1 =>
    if c.utf8Size ≤ n + 1 then (sliceBytes rest (n + 1 - c.utf8Size)).map (c :: ·)
    else none

/-- The source preview
`&img_info.url[..std::cmp::min(50, img_info.url.len())]` (tools.rs:94 and
tools.rs:273): the first min(50, byte-length) bytes of the URL; `none`
when byte 50 falls inside a multi-byte character, in which case the Rust
slice panics. -/
def urlPreview (url : String) : Option String :=
  (sliceBytes url.toList (min 50 (utf8Len url.toList))).map String.mk

/-- The text appended for one saved-image record by the `generate_image`
report loop (tools.rs:90-107): byte-sliced source preview, saved path or
the not-saved marker, and the debug note when non-empty; `none` models the
preview slice panicking. -/
def imageLineGen (index : Nat) (info : SavedImageInfo) : Option String :=
  (urlPreview info.url).map (fun pre =>
    ("\n- 图像 " ++ toString (index + 1) ++ ": " ++ pre ++ "...")
      ++ (match info.saved_path with
          | some saved_path => "\n  已保存到: " ++ saved_path
          | none => "\n  ⚠️ 未保存到文件")
      ++ (if info.debug_info = "" then "" else "\n  [调试] " ++ info.debug_info))

/-- The text appended for one saved-image record by the `edit_image` report
loop (tools.rs:269-279): byte-sliced source preview, and the saved path
only when present — no not-saved marker and no debug note; `none` models
the preview slice panicking. -/
def imageLineEdit (index : Nat) (info : SavedImageInfo) : Option String :=
  (urlPreview info.url).map (fun pre =>
    ("\n- 图像 " ++ toString (index + 1) ++ ": " ++ pre ++ "...")
      ++ (match info.saved_path with
          | some saved_path => "\n  已保存到: " ++ saved_path
          | none => ""))

/-- The `generate_image` report loop (tools.rs:90-107): successive
`push_str` calls onto the accumulated report; a preview-slice panic aborts
the whole report. -/
def appendImageLinesGen (start : String) (infos : List SavedImageInfo) : Option String :=
  infos.enum.foldl
    (fun acc p => acc.bind (fun s => (imageLineGen p.1 p.2).map (s ++ ·)))
    (some start)

/-- The `edit_image` report loop (tools.rs:269-279). -/
def appendImageLinesEdit (start : String) (infos : List SavedImageInfo) : Option String :=
  infos.enum.foldl
    (fun acc p => acc.bind (fun s => (imageLineEdit p.1 p.2).map (s ++ ·)))
    (some start)

/-! ### Helper lemmas about substring search -/

theorem isPrefixOf_length_le :
    ∀ (p l : List Char), p.isPrefixOf l = true → p.length ≤ l.length := by
  intro p
  induction p with
  | nil => intro l h; simp
  | cons a as ih =>
    intro l h
    cases l with
    | nil => simp [List.isPrefixOf] at h
    | cons b bs =>
      simp only [List.isPrefixOf, Bool.and_eq_true] at h
      have := ih bs h.2
      simp only [List.length_cons]
      omega

theorem isPrefixOf_self_true : ∀ (l : List Char), l.isPrefixOf l = true := by
  intro l
  induction l with
  | nil => rfl
  | cons a as ih => simp [List.isPrefixOf, ih]

theorem isPrefixOf_nil_eq : ∀ (p : List Char), p.isPrefixOf ([] : List Char) = true → p = [] := by
  intro p h
  cases p with
  | nil => rfl
  | cons a as => simp [List.isPrefixOf] at h

theorem findSub_bound (pat : List Char) :
    ∀ (hay : List Char) (i : Nat), findSub pat hay = some i → i + pat.length ≤ hay.length := by
  intro hay
  induction hay with
  | nil =>
    intro i h
    unfold findSub at h
    by_cases hp : pat.isPrefixOf ([] : List Char)
    · rw [if_pos hp] at h
      have hpe : pat = [] := isPrefixOf_nil_eq pat hp
      cases h
      simp [hpe]
    · rw [if_neg hp] at h
      cases h
  | cons c rest ih =>
    intro i h
    unfold findSub at h
    by_cases hp : pat.isPrefixOf (c :: rest)
    · rw [if_pos hp] at h
      cases h
      simpa using isPrefixOf_length_le pat (c :: rest) hp
    · rw [if_neg hp] at h
      cases hr : findSub pat rest with
      | none => rw [hr] at h; cases h
      | some j =>
        rw [hr] at h
        cases h
        have := ih j hr
        simp only [List.length_cons]
        omega

theorem findSub_isSome_of_occurs (pat : List Char) :
    ∀ (hay : List Char) (i : Nat), pat.isPrefixOf (hay.drop i) = true →
      (findSub pat hay).isSome = true := by
  intro hay
  induction hay with
  | nil =>
    intro i h
    simp only [List.drop_nil] at h
    unfold findSub
    rw [if_pos h]
    rfl
  | cons c rest ih =>
    intro i h
    unfold findSub
    by_cases hp : pat.isPrefixOf (c :: rest)
    · rw [if_pos hp]; rfl
    · rw [if_neg hp]
      cases i with
      | zero => exact absurd h hp
      | succ j =>
        have hi := ih j (by simpa using h)
        cases hr : findSub pat rest with
        | none => rw [hr] at hi; cases hi
        | some m => rfl

theorem containsSub_append_self (p s : List Char) : containsSub s (p ++ s) = true := by
  unfold containsSub
  apply findSub_isSome_of_occurs s (p ++ s) p.length
  rw [List.drop_left]
  exact isPrefixOf_self_true s

theorem containsSubStr_append_self (p s : String) : containsSubStr s (p ++ s) = true := by
  unfold containsSubStr
  have hd : (p ++ s).toList = p.toList ++ s.toList := String.data_append p s
  rw [hd]
  exact containsSub_append_self p.toList s.toList

/-! ### Helper lemmas about the markdown-extraction loop -/

theorem mdTryMatch_pos (remaining : List Char) (mlen : Nat) (url : List Char)
    (h : mdTryMatch remaining = some (mlen, url)) : 1 ≤ mlen := by
  unfold mdTryMatch at h
  cases h1 : findSub bracketParen remaining with
  | none => rw [h1] at h; cases h
  | some paren_idx =>
    rw [h1] at h
    simp only at h
    by_cases hp : dataImagePat.isPrefixOf (remaining.drop (paren_idx + 2))
    · rw [if_pos hp] at h
      cases h2 : findSub [')'] (remaining.drop (paren_idx + 2)) with
      | none => rw [h2] at h; cases h
      | some end_idx =>
        rw [h2] at h
        cases h
        omega
    · rw [if_neg hp] at h
      cases h

/-- Removing a span that starts at a `"!["` occurrence strictly shrinks the
text (the loop body of `extract_images_from_markdown` always makes
progress). -/
theorem mdShrink (text : List Char) (s mlen : Nat)
    (hs : findSub bangBracket text = some s) (hm : 1 ≤ mlen) :
    (text.take s ++ text.drop (s + mlen)).length < text.length := by
  have hb := findSub_bound bangBracket text s hs
  simp only [bangBracket, List.length_cons, List.length_nil] at hb
  simp only [List.length_append, List.length_take, List.length_drop]
  omega

theorem mdLoopF_isSome :
    ∀ (fuel : Nat) (text : List Char) (acc : List (List Char)),
      text.length < fuel → (mdLoopF fuel text acc).isSome = true := by
  intro fuel
  induction fuel with
  | zero => intro text acc h; exact absurd h (Nat.not_lt_zero _)
  | succ n ih =>
    intro text acc h
    cases hs : findSub bangBracket text with
    | none => simp [mdLoopF, hs]
    | some s =>
      cases ht : mdTryMatch (text.drop s) with
      | some p =>
        obtain ⟨mlen, url⟩ := p
        simp only [mdLoopF, hs, ht]
        apply ih
        have := mdShrink text s mlen hs (mdTryMatch_pos _ _ _ ht)
        omega
      | none =>
        simp only [mdLoopF, hs, ht]
        apply ih
        have := mdShrink text s 2 hs (by omega)
        omega

/-- On normal exit, the loop's final text contains no further `"!["`. -/
theorem mdLoopF_exit :
    ∀ (fuel : Nat) (text : List Char) (acc : List (List Char)) (t : List Char)
      (imgs : List (List Char)),
      mdLoopF fuel text acc = some (t, imgs) → findSub bangBracket t = none := by
  intro fuel
  induction fuel with
  | zero => intro text acc t imgs h; cases h
  | succ n ih =>
    intro text acc t imgs h
    cases hs : findSub bangBracket text with
    | none =>
      simp only [mdLoopF, hs] at h
      cases h
      exact hs
    | some s =>
      cases ht : mdTryMatch (text.drop s) with
      | some p =>
        obtain ⟨mlen, url⟩ := p
        simp only [mdLoopF, hs, ht] at h
        exact ih _ _ _ _ h
      | none =>
        simp only [mdLoopF, hs, ht] at h
        exact ih _ _ _ _ h

/-- C4: the markdown-extraction loop of `extract_images_from_markdown`
terminates for every input (fuel `length + 1` always suffices, because each
iteration strictly shrinks the remaining text, cf. `mdShrink`). -/
theorem c4_markdown_extraction_terminates :
    ∀ (cs : List Char) (acc : List (List Char)),
      (mdLoopF (cs.length + 1) cs acc).isSome = true :=
  fun cs acc => mdLoopF_isSome (cs.length + 1) cs acc (Nat.lt_succ_self _)

/-- C3 counterexample: on the input `"![x"`, whose `"!["` never completes a
markdown-image match, `extract_images_from_markdown` returns `"x"` — the
unmatched marker is *removed*, not left in place as the claim states. -/
theorem c3_counterexample_marker_removed :
    extract_images_from_markdown "![x".toList = ("x".toList, []) ∧
    "x".toList ≠ "![x".toList := by
  refine ⟨by decide, by decide⟩

/-- C3 (amended): an occurrence of `"!["` that does not complete a
markdown-image match is not left in place — the scan deletes the two marker
characters (keeping the text around them) and continues; consequently the
loop's final text contains no `"!["` occurrence at all. -/
theorem c3_amended_markers_deleted :
    ∀ (cs : List Char), ∃ t imgs,
      mdLoopF (cs.length + 1) cs [] = some (t, imgs) ∧
      extract_images_from_markdown cs = (trimList t, imgs) ∧
      findSub bangBracket t = none := by
  intro cs
  have h := mdLoopF_isSome (cs.length + 1) cs [] (Nat.lt_succ_self _)
  cases hm : mdLoopF (cs.length + 1) cs [] with
  | none => rw [hm] at h; cases h
  | some p =>
    obtain ⟨t, imgs⟩ := p
    refine ⟨t, imgs, rfl, ?_, mdLoopF_exit _ _ _ _ _ hm⟩
    unfold extract_images_from_markdown
    rw [hm]

/-- C1: whenever the reply carries an `error` field — whatever other fields
are present — `extract_text_and_images` fails before any envelope or content
processing, with a message containing the reply's `error.message` string
(or the fixed default `"未知错误"` when that field is absent or not a
string, cf. `upstreamErrMsg`). -/
theorem c1_upstream_error_priority (r error : Json)
    (h : r.get "error" = some error) :
    extract_text_and_images r = .error ("API 返回错误: " ++ upstreamErrMsg error) ∧
    containsSubStr (upstreamErrMsg error)
      ("API 返回错误: " ++ upstreamErrMsg error) = true := by
  constructor
  · unfold extract_text_and_images
    rw [h]
  · exact containsSubStr_append_self _ _

/-- A reply with an `error` field alongside a well-formed `choices`
envelope. -/
def c1Reply : Json :=
  .obj [("error", .obj [("message", .str "bad key")]),
        ("choices", .arr [.obj [("message", .obj [("content", .str "hi")])]])]

/-- Witness for C1 at a concrete reply carrying `error.message = "bad key"`
next to a valid `choices` envelope. -/
theorem c1_upstream_error_priority_witness :
    extract_text_and_images c1Reply
        = .error ("API 返回错误: " ++ upstreamErrMsg (Json.obj [("message", Json.str "bad key")])) ∧
    containsSubStr (upstreamErrMsg (Json.obj [("message", Json.str "bad key")]))
        ("API 返回错误: " ++ upstreamErrMsg (Json.obj [("message", Json.str "bad key")]))
      = true :=
  c1_upstream_error_priority c1Reply (Json.obj [("message", Json.str "bad key")]) rfl

/-- The failure condition of envelope selection as the spec words it: the
chosen array (`choices` when it yields an array, else `candidates`) is
empty, or its first element lacks the expected nested field, or neither key
yields an array. -/
def envelopeFailureSpec (r : Json) : Prop :=
  choicesArr r = some [] ∨
  (∃ c0 rest, choicesArr r = some (c0 :: rest) ∧ c0.get "message" = none) ∨
  (choicesArr r = none ∧ candidatesArr r = some []) ∨
  (choicesArr r = none ∧
    ∃ c0 rest, candidatesArr r = some (c0 :: rest) ∧ c0.get "content" = none) ∨
  (choicesArr r = none ∧ candidatesArr r = none)

theorem selectMessage_error_iff (r : Json) :
    exceptIsOk (selectMessage r) = false ↔ envelopeFailureSpec r := by
  unfold selectMessage envelopeFailureSpec
  cases hc : choicesArr r with
  | some cs =>
    cases cs with
    | nil => simp [exceptIsOk]
    | cons c0 rest =>
      cases hm : c0.get "message" with
      | some m => simp [exceptIsOk, hm]
      | none => simp [exceptIsOk, hm]
  | none =>
    cases hd : candidatesArr r with
    | some cands =>
      cases cands with
      | nil => simp [exceptIsOk]
      | cons c0 rest =>
        cases hm : c0.get "content" with
        | some m => simp [exceptIsOk, hm]
        | none => simp [exceptIsOk, hm]
    | none => simp [exceptIsOk]

/-- C2: for a reply without an `error` field, normalization fails exactly
when the chosen envelope array (`choices[0].message` first, else
`candidates[0].content`) is empty, its first element lacks the expected
nested field, or neither key yields an array; in all other cases a message
container is selected and normalization proceeds. -/
theorem c2_envelope_selection (r : Json) (h : r.get "error" = none) :
    exceptIsOk (extract_text_and_images r) = false ↔ envelopeFailureSpec r := by
  rw [← selectMessage_error_iff r]
  unfold extract_text_and_images
  rw [h]
  cases hm : selectMessage r with
  | error e => simp [exceptIsOk]
  | ok message => simp [exceptIsOk]

/-- Witness for C2 at the concrete reply `{choices: []}`: normalization
fails, and the spec-side failure condition holds there. -/
theorem c2_envelope_selection_witness :
    exceptIsOk (extract_text_and_images (Json.obj [("choices", Json.arr [])])) = false :=
  (c2_envelope_selection (Json.obj [("choices", Json.arr [])]) rfl).mpr (Or.inl rfl)

/-- The image descriptors collected before the `data` fallback: the message
content scan (including embedded-markdown extraction) followed by the
message-level `images` array. -/
def mainImages (r : Json) : List Json :=
  match selectMessage r with
  | .ok message => (scanContent (contentFieldOf message)).2 ++ messageImages message
  | .error _ => []

/-- The `data`-array descriptors as the spec words them: an entry with a
string `b64_json` field yields a descriptor whose source is
`"data:image/png;base64," ++ b64`, else an entry with a `url` field yields
a descriptor from that URL. -/
def dataImagesSpec (r : Json) : List Json :=
  match (r.get "data").bind Json.asArr with
  | some entries =>
    entries.filterMap (fun entry =>
      match (entry.get "b64_json").bind Json.asStr with
      | some b64 => some (mkImgUrlStr ("data:image/png;base64," ++ b64))
      | none => (entry.get "url").map mkImgUrlVal)
  | none => []

theorem dataFold_eq (entries : List Json) :
    ∀ acc : List Json,
      entries.foldl
        (fun acc img =>
          match (img.get "b64_json").bind Json.asStr with
          | some b64 => acc ++ [mkImgUrlStr ("data:image/png;base64," ++ b64)]
          | none =>
            match img.get "url" with
            | some url => acc ++ [mkImgUrlVal url]
            | none => acc)
        acc
      = acc ++ entries.filterMap (fun entry =>
          match (entry.get "b64_json").bind Json.asStr with
          | some b64 => some (mkImgUrlStr ("data:image/png;base64," ++ b64))
          | none => (entry.get "url").map mkImgUrlVal) := by
  induction entries with
  | nil => intro acc; simp
  | cons e rest ih =>
    intro acc
    simp only [List.foldl_cons, List.filterMap_cons]
    cases hb : (e.get "b64_json").bind Json.asStr with
    | some b64 => rw [ih]; simp
    | none =>
      cases hu : e.get "url" with
      | some url => rw [ih]; simp
      | none => rw [ih]; simp

theorem dataImages_eq_spec (r : Json) : dataImages r = dataImagesSpec r := by
  unfold dataImages dataImagesSpec
  cases hd : (r.get "data").bind Json.asArr with
  | none => rfl
  | some entries => simpa using dataFold_eq entries []

/-- C5: the images returned by normalization are exactly the
content/markdown/message-level descriptors, extended with the spec-worded
`data`-array descriptors precisely when the former list is empty — `data`
entries are never added once an image was already found. -/
theorem c5_data_array_fallback (r : Json) (t : String) (imgs : List Json)
    (h : extract_text_and_images r = .ok (t, imgs)) :
    imgs = mainImages r
      ++ (if (mainImages r).isEmpty then dataImagesSpec r else []) := by
  unfold extract_text_and_images at h
  cases he : r.get "error" with
  | some error => rw [he] at h; cases h
  | none =>
    rw [he] at h
    cases hm : selectMessage r with
    | error e => rw [hm] at h; cases h
    | ok message =>
      rw [hm] at h
      simp only [Except.ok.injEq, Prod.mk.injEq] at h
      obtain ⟨-, h2⟩ := h
      unfold mainImages
      rw [hm]
      rw [← h2]
      cases hempty : ((scanContent (contentFieldOf message)).2 ++ messageImages message).isEmpty with
      | true => simp [hempty, dataImages_eq_spec]
      | false => simp [hempty]

/-- A reply whose content yields no image but whose top-level `data` array
carries one `b64_json` entry. -/
def c5Reply : Json :=
  .obj [("choices", .arr [.obj [("message", .obj [("content", .str "hi")])]]),
        ("data", .arr [.obj [("b64_json", .str "AAAA")]])]

/-- Witness for C5: on `c5Reply` the sole returned image is the
spec-worded `data` descriptor appended to the empty main list. -/
theorem c5_data_array_fallback_witness :
    [mkImgUrlStr ("data:image/png;base64," ++ "AAAA")]
      = mainImages c5Reply
        ++ (if (mainImages c5Reply).isEmpty then dataImagesSpec c5Reply else []) :=
  c5_data_array_fallback c5Reply "hi" [mkImgUrlStr ("data:image/png;base64," ++ "AAAA")] rfl

set_option maxRecDepth 4096 in
/-- C6: `edit_image` with an empty `images` list returns the usage error
before any request is built (the build function yields no request value,
so nothing can be sent), and the error text lists the three accepted input
formats: URL, base64 data URI, and local file path. -/
theorem c6_empty_images_usage_error
    (classify : String → Except Unit ImageContent)
    (findDir : String → String → Except Unit ImageContent)
    (oracle : Nat → String) (modelName instruction : String) :
    edit_image_build classify findDir oracle modelName ⟨instruction, []⟩
        = .error usageErrorMsg ∧
    containsSubStr "URL" usageErrorMsg = true ∧
    containsSubStr "base64" usageErrorMsg = true ∧
    containsSubStr "本地文件路径" usageErrorMsg = true := by
  refine ⟨rfl, ?_, ?_, ?_⟩ <;> decide

/-- C7: when classification of an input fails and the save-directory
fallback search also fails, the edit operation does not abort — the raw
input string is forwarded verbatim as the URL of an `image_url` part, and
the request build still succeeds for any non-empty image list. -/
theorem c7_unrecognized_input_forwarded_verbatim :
    (∀ (classify : String → Except Unit ImageContent)
       (findDir : String → String → Except Unit ImageContent) (d input : String),
        classify input = .error () → findDir input d = .error () →
        editProcessOne classify findDir d input = imageUrlPart input) ∧
    (∀ (classify : String → Except Unit ImageContent)
       (findDir : String → String → Except Unit ImageContent)
       (oracle : Nat → String) (modelName : String) (args : EditImageArgs),
        args.images ≠ [] →
        exceptIsOk (edit_image_build classify findDir oracle modelName args) = true) := by
  constructor
  · intro classify findDir d input hc hf
    unfold editProcessOne
    rw [hc]
    unfold editFallbackPart
    rw [hf]
  · intro classify findDir oracle modelName args h
    unfold edit_image_build
    rw [if_neg (fun he => h (List.isEmpty_iff.mp he))]
    rfl

/-- Witness for C7 at a classifier and fallback that reject everything:
the raw string `"not-an-image"` is forwarded verbatim, and the build of a
one-image request succeeds. -/
theorem c7_unrecognized_input_forwarded_verbatim_witness :
    editProcessOne (fun _ => .error ()) (fun _ _ => .error ()) "dir" "not-an-image"
        = imageUrlPart "not-an-image" ∧
    exceptIsOk (edit_image_build (fun _ => .error ()) (fun _ _ => .error ())
        (fun _ => "dir") "m" ⟨"instr", ["not-an-image"]⟩) = true :=
  ⟨c7_unrecognized_input_forwarded_verbatim.1 _ _ _ _ rfl rfl,
   c7_unrecognized_input_forwarded_verbatim.2 _ _ _ _ _ (by decide)⟩

/-! ### Report-line formatting (C8) -/

/-- Concatenation of a list of strings. -/
def concatAll : List String → String
  | [] => ""
  | s :: rest => s ++ concatAll rest

/-- Sequence a list of possibly-panicking segments: `none` as soon as one
segment is `none`. -/
def seqOptions : List (Option String) → Option (List String)
  | [] => some []
  | o :: rest => o.bind (fun s => (seqOptions rest).map (s :: ·))

theorem foldl_optAppend_none (f : α → Option String) :
    ∀ (l : List α),
      l.foldl (fun acc x => acc.bind (fun s => (f x).map (s ++ ·))) none = none := by
  intro l
  induction l with
  | nil => rfl
  | cons x rest ih =>
    simp only [List.foldl_cons]
    exact ih

theorem foldl_optAppend_eq_seq (f : α → Option String) :
    ∀ (l : List α) (start : String),
      l.foldl (fun acc x => acc.bind (fun s => (f x).map (s ++ ·))) (some start)
        = (seqOptions (l.map f)).map (fun ls => start ++ concatAll ls) := by
  intro l
  induction l with
  | nil => intro start; simp [seqOptions, concatAll]
  | cons x rest ih =>
    intro start
    simp only [List.foldl_cons, List.map_cons, seqOptions]
    cases hf : f x with
    | none =>
      simp only [Option.some_bind, hf, Option.map_none, Option.none_bind]
      exact foldl_optAppend_none f rest
    | some seg =>
      simp only [Option.some_bind, hf, Option.map_some']
      rw [ih (start ++ seg)]
      cases hs : seqOptions (rest.map f) with
      | none => rfl
      | some ls => simp [concatAll, String.append_assoc]

/-- The fixed wrapping of one preview segment: `"\n- 图像 i: <pre>..."`. -/
def previewWrap (index : Nat) (pre : String) : String :=
  "\n- 图像 " ++ toString (index + 1) ++ ": " ++ pre ++ "..."

/-- `generate_image`: saved path on success, not-saved marker on failure. -/
def genSaveSeg (info : SavedImageInfo) : String :=
  match info.saved_path with
  | some saved_path => "\n  已保存到: " ++ saved_path
  | none => "\n  ⚠️ 未保存到文件"

/-- `generate_image`: the debug note, only when non-empty. -/
def genDebugSeg (info : SavedImageInfo) : String :=
  if info.debug_info = "" then "" else "\n  [调试] " ++ info.debug_info

/-- `edit_image`: saved path on success, nothing at all on failure. -/
def editSaveSeg (info : SavedImageInfo) : String :=
  match info.saved_path with
  | some saved_path => "\n  已保存到: " ++ saved_path
  | none => ""

/-- C8 counterexample: for a record whose persistence failed (with
diagnostic `"boom"`), the `edit_image` report line is only the source
preview — it contains neither a not-saved marker nor the diagnostic,
contradicting the claim that both operations emit them. -/
theorem c8_counterexample_edit_line_bare :
    imageLineEdit 0 ⟨"src", none, "boom"⟩ = some "\n- 图像 1: src..." ∧
    containsSubStr "未保存" "\n- 图像 1: src..." = false ∧
    containsSubStr "boom" "\n- 图像 1: src..." = false := by
  refine ⟨rfl, ?_, ?_⟩ <;> decide

/-- C8 (amended): each report segment opens with the preview obtained by
slicing the first min(50, byte-length) bytes of the source — a slice that
panics when byte 50 splits a multi-byte character (the `none` case,
exhibited on a 17-character CJK source of 51 bytes); on success both
operations append the saved path; on persistence failure `generate_image`
appends the not-saved marker plus the diagnostic when non-empty, while
`edit_image` appends nothing; each report is the concatenation of one such
segment per record, aborted by a panicking slice. -/
theorem c8_amended_report_lines :
    (∀ (index : Nat) (info : SavedImageInfo),
        imageLineGen index info
          = (urlPreview info.url).map (fun pre =>
              previewWrap index pre ++ genSaveSeg info ++ genDebugSeg info) ∧
        imageLineEdit index info
          = (urlPreview info.url).map (fun pre =>
              previewWrap index pre ++ editSaveSeg info)) ∧
    (∀ (start : String) (infos : List SavedImageInfo),
        appendImageLinesGen start infos
          = (seqOptions (infos.enum.map (fun p => imageLineGen p.1 p.2))).map
              (fun ls => start ++ concatAll ls) ∧
        appendImageLinesEdit start infos
          = (seqOptions (infos.enum.map (fun p => imageLineEdit p.1 p.2))).map
              (fun ls => start ++ concatAll ls)) ∧
    imageLineGen 0 ⟨String.mk (List.replicate 17 '中'), none, ""⟩ = none := by
  refine ⟨?_, ?_, ?_⟩
  · intro index info
    exact ⟨rfl, rfl⟩
  · intro start infos
    exact ⟨foldl_optAppend_eq_seq _ infos.enum start,
           foldl_optAppend_eq_seq _ infos.enum start⟩
  · rfl

/-! ### Save-directory read counting (C9) and request structure (C10) -/

/-- Number of inputs whose classification fails — exactly the iterations
of the `edit_image` loop that read the save-directory state. -/
def countClassifyFailures (classify : String → Except Unit ImageContent)
    (inputs : List String) : Nat :=
  inputs.countP (fun i => !(exceptIsOk (classify i)))

theorem editLoop_read_count (classify : String → Except Unit ImageContent)
    (findDir : String → String → Except Unit ImageContent) (oracle : Nat → String) :
    ∀ (inputs : List String) (k : Nat),
      (editLoop classify findDir oracle inputs k).2
        = k + countClassifyFailures classify inputs := by
  intro inputs
  induction inputs with
  | nil => intro k; simp [editLoop, countClassifyFailures]
  | cons i rest ih =>
    intro k
    unfold countClassifyFailures at ih ⊢
    rw [List.countP_cons]
    cases hc : classify i with
    | ok c =>
      simp only [editLoop, hc]
      rw [ih k]
      simp [exceptIsOk]
    | error e =>
      simp only [editLoop, hc]
      rw [ih (k + 1)]
      simp only [exceptIsOk, Bool.not_false, if_pos]
      omega

/-- C9 counterexample: with a classifier and fallback that reject both
inputs, one `edit_image` invocation reads the shared save-directory state
three times (once per failing input inside the loop, tools.rs:180-183,
plus once before persistence, tools.rs:231-234) — not exactly once as the
claim states. -/
theorem c9_counterexample_three_reads :
    edit_invocation_read_count (fun _ => .error ()) (fun _ _ => .error ())
        (fun _ => "D") ⟨"edit", ["a", "b"]⟩ = 3 ∧ (3 : Nat) ≠ 1 :=
  ⟨rfl, by decide⟩

/-- C9 (amended): `generate_image` reads the save-directory state exactly
once; `edit_image` (with a non-empty image list) reads it once per input
whose classification fails plus once before persistence, each read at its
point of use. -/
theorem c9_amended_read_counts (classify : String → Except Unit ImageContent)
    (findDir : String → String → Except Unit ImageContent)
    (oracle : Nat → String) (args : EditImageArgs) (h : args.images ≠ []) :
    generate_invocation_read_count = 1 ∧
    edit_invocation_read_count classify findDir oracle args
      = countClassifyFailures classify args.images + 1 := by
  refine ⟨rfl, ?_⟩
  unfold edit_invocation_read_count
  rw [if_neg (fun he => h (List.isEmpty_iff.mp he))]
  rw [editLoop_read_count]
  omega

/-- Witness for C9 (amended) at a concrete two-image call whose
classifications both fail: three reads, matching the failure count plus
one. -/
theorem c9_amended_read_counts_witness :
    generate_invocation_read_count = 1 ∧
    edit_invocation_read_count (fun _ => .error ()) (fun _ _ => .error ())
        (fun _ => "D") ⟨"edit", ["a", "b"]⟩
      = countClassifyFailures (fun _ => .error ()) ["a", "b"] + 1 :=
  c9_amended_read_counts (fun _ => .error ()) (fun _ _ => .error ())
    (fun _ => "D") ⟨"edit", ["a", "b"]⟩ (by decide)

theorem editProcessOne_isImageUrl (classify : String → Except Unit ImageContent)
    (findDir : String → String → Except Unit ImageContent) (d input : String) :
    ∃ u, editProcessOne classify findDir d input = imageUrlPart u := by
  cases hc : classify input with
  | ok c =>
    refine ⟨c.data, ?_⟩
    simp only [editProcessOne, hc]
    split_ifs <;> rfl
  | error e =>
    cases hf : findDir input d with
    | ok c =>
      refine ⟨c.data, ?_⟩
      simp only [editProcessOne, editFallbackPart, hc, hf]
    | error e2 =>
      refine ⟨input, ?_⟩
      simp only [editProcessOne, editFallbackPart, hc, hf]

theorem editLoop_parts_zip (classify : String → Except Unit ImageContent)
    (findDir : String → String → Except Unit ImageContent) (oracle : Nat → String) :
    ∀ (inputs : List String) (k : Nat),
      ∃ dirs : List String, dirs.length = inputs.length ∧
        (editLoop classify findDir oracle inputs k).1
          = List.zipWith (editProcessOne classify findDir) dirs inputs := by
  intro inputs
  induction inputs with
  | nil => intro k; exact ⟨[], rfl, rfl⟩
  | cons i rest ih =>
    intro k
    cases hc : classify i with
    | ok c =>
      obtain ⟨dirs, hlen, hparts⟩ := ih k
      refine ⟨oracle k :: dirs, by simp [hlen], ?_⟩
      simp only [editLoop, hc, List.zipWith]
      rw [hparts]
      unfold editProcessOne
      rw [hc]
    | error e =>
      obtain ⟨dirs, hlen, hparts⟩ := ih (k + 1)
      refine ⟨oracle k :: dirs, by simp [hlen], ?_⟩
      simp only [editLoop, hc, List.zipWith]
      rw [hparts]
      unfold editProcessOne
      rw [hc]

/-- C10: for a non-empty image list, the built request content is exactly
one text part holding the instruction followed by one part per input image
in input order (a zip of the per-input processing over the directory
values in effect), and every per-input outcome — classified, resolved via
the save directory, or the raw pass-through — is an `image_url` part. -/
theorem c10_request_content_structure (classify : String → Except Unit ImageContent)
    (findDir : String → String → Except Unit ImageContent) (oracle : Nat → String)
    (modelName instruction : String) (imgs : List String) (h : imgs ≠ []) :
    ∃ (body : EditRequest) (dirs : List String),
      edit_image_build classify findDir oracle modelName ⟨instruction, imgs⟩ = .ok body ∧
      dirs.length = imgs.length ∧
      body.content
        = textPart instruction :: List.zipWith (editProcessOne classify findDir) dirs imgs ∧
      ∀ (d input : String), ∃ u,
        editProcessOne classify findDir d input = imageUrlPart u := by
  obtain ⟨dirs, hlen, hparts⟩ := editLoop_parts_zip classify findDir oracle imgs 0
  refine ⟨{ model := modelName
            content := textPart instruction ::
              (editLoop classify findDir oracle imgs 0).1
            max_tokens := 1000 },
          dirs, ?_, hlen, ?_, fun d input => editProcessOne_isImageUrl classify findDir d input⟩
  · unfold edit_image_build
    rw [if_neg (fun he => h (List.isEmpty_iff.mp he))]
  · simp only
    rw [hparts]

/-- Witness for C10 at a concrete one-image call with an all-rejecting
classifier. -/
theorem c10_request_content_structure_witness :
    ∃ (body : EditRequest) (dirs : List String),
      edit_image_build (fun _ => .error ()) (fun _ _ => .error ())
          (fun _ => "D") "m" ⟨"i", ["a"]⟩ = .ok body ∧
      dirs.length = (["a"] : List String).length ∧
      body.content
        = textPart "i" :: List.zipWith
            (editProcessOne (fun _ => .error ()) (fun _ _ => .error ())) dirs ["a"] ∧
      ∀ (d input : String), ∃ u,
        editProcessOne (fun _ => .error ()) (fun _ _ => .error ()) d input
          = imageUrlPart u :=
  c10_request_content_structure (fun _ => .error ()) (fun _ _ => .error ())
    (fun _ => "D") "m" "i" ["a"] (by decide)
